import Mathlib

/-!
Verification development for the github-releases-summary repository.

The definitions below are shallow embeddings of the Python source:
  - `src/src/github_release.py` : `GitHubClient.fetch_all_releases`,
    `GitHubClient.get_recent_releases`, `parse_repo_input`
  - `src/src/gpt.py` : `BaseGPTClient.generate_prompt`,
    `OpenAIClient.stream_summary`, `ZhipuAIClient.stream_summary`,
    `create_gpt_client`
  - `src/app.py` : `ensure_data_file`, `add_repo`, `remove_repo`

Network, file system and LLM effects are made explicit: the HTTP server is a
list of page responses, the streamed LLM response is a list of events, and the
persisted JSON file is an `Option` over a key/value mapping (`none` = the file
does not exist).
-/

namespace GRS

/-! ## Pagination model (`GitHubClient.fetch_all_releases`)

Each HTTP response to `GET .../releases?page=p&per_page=100` is a status code
together with the decoded JSON array.  The server is the list of responses for
pages 1, 2, 3, ...; a request beyond the end of that list receives status 200
with an empty array (as GitHub answers past the last page). -/

/-- One HTTP page response: status code and decoded JSON array body. -/
structure PageResp (α : Type) where
  status : Nat
  data : List α
deriving DecidableEq

/-- The consecutive page numbers `start, start+1, ..., start+n-1`. -/
def pageList (start n : Nat) : List Nat :=
  match n with
  | 0 => []
  | n + 1 => start :: pageList (start + 1) n

/-- The `while True` pagination loop of `fetch_all_releases` (lines 23-36 of
`github_release.py`): `acc` is `results`, `reqs` records the page numbers
requested so far, `page` is the next page number.  Per the source,
`per_page = 100`.  A non-200 status breaks; an empty body breaks; a body
shorter than 100 items is appended and then the loop breaks; otherwise the
body is appended and the next page is requested. -/
def fetchFrom {α : Type} (acc : List α) (reqs : List Nat) (page : Nat) :
    List (PageResp α) → List α × List Nat
  | [] => (acc, reqs ++ [page])
  | r :: rest =>
    if r.status ≠ 200 then (acc, reqs ++ [page])
    else if r.data.isEmpty then (acc, reqs ++ [page])
    else if r.data.length < 100 then (acc ++ r.data, reqs ++ [page])
    else fetchFrom (acc ++ r.data) (reqs ++ [page]) (page + 1) rest

/-- `GitHubClient.fetch_all_releases`: starts at page 1 with an empty
accumulator; returns the accumulated releases together with the list of page
numbers that were requested. -/
def fetch_all_releases {α : Type} (server : List (PageResp α)) :
    List α × List Nat :=
  fetchFrom [] [] 1 server

/-! ## Streaming summary model (`stream_summary`)

The backend's streamed response is a list of events: a delivered chunk whose
delta content is an optional string (`None` in Python), or an exception raised
at that point of the iteration (a raise at position 0 also models a failure of
the `create` call itself, which sits inside the same `try`). -/

/-- One event observed while iterating the backend's stream. -/
inductive StreamEvent where
  | chunk (content : Option String)
  | raise (err : String)
deriving DecidableEq

/-- The two LLM backends of `gpt.py`. -/
inductive Backend where
  | openai
  | zhipuai
deriving DecidableEq

/-- The error fragment yielded by the `except` clause of each backend's
`stream_summary` (`"\nError calling OpenAI API: "` followed by the exception
text, resp. ZhipuAI). -/
def backendErrorFragment (b : Backend) (e : String) : String :=
  match b with
  | Backend.openai => "\nError calling OpenAI API: " ++ e
  | Backend.zhipuai => "\nError calling ZhipuAI API: " ++ e

/-- The fragments yielded by `stream_summary` for a given event sequence:
each delivered chunk yields its delta content with `None` replaced by the
empty string (the `or ""` in the source); the first raised exception yields
the single error fragment and ends the generator. -/
def stream_summary (b : Backend) : List StreamEvent → List String
  | [] => []
  | StreamEvent.chunk c :: rest => c.getD "" :: stream_summary b rest
  | StreamEvent.raise e :: _ => [backendErrorFragment b e]

/-! ## Pagination lemmas and claims C2, C7 -/

theorem fetchFrom_full_pages {α : Type} (full : List (List α)) (last : List α)
    (hlast : last.length < 100) (junk : List (PageResp α)) :
    ∀ (acc : List α) (reqs : List Nat) (page : Nat),
      (∀ l ∈ full, l.length = 100) →
      fetchFrom acc reqs page
          ((full ++ [last]).map (fun d => PageResp.mk 200 d) ++ junk) =
        (acc ++ (full ++ [last]).flatten,
          reqs ++ pageList page (full.length + 1)) := by
  induction full with
  | nil =>
    intro acc reqs page _
    by_cases hempty : last.isEmpty
    · have hl : last = [] := by
        cases last with
        | nil => rfl
        | cons a t => simp [List.isEmpty] at hempty
      simp [fetchFrom, hl, pageList]
    · simp [fetchFrom, hempty, hlast, pageList]
  | cons p rest ih =>
    intro acc reqs page hfull
    have hp : p.length = 100 := hfull p (List.mem_cons_self p rest)
    have hpe : p.isEmpty = false := by
      cases p with
      | nil => simp at hp
      | cons a t => simp [List.isEmpty]
    have hns : ¬ p.length < 100 := by omega
    have hrest : ∀ l ∈ rest, l.length = 100 := fun l hl =>
      hfull l (List.mem_cons_of_mem p hl)
    have hstep : fetchFrom acc reqs page
        (PageResp.mk 200 p ::
          ((rest ++ [last]).map (fun d => PageResp.mk 200 d) ++ junk)) =
        fetchFrom (acc ++ p) (reqs ++ [page]) (page + 1)
          ((rest ++ [last]).map (fun d => PageResp.mk 200 d) ++ junk) := by
      simp [fetchFrom, hpe, hns]
    simp only [List.cons_append, List.map_cons]
    rw [hstep, ih (acc ++ p) (reqs ++ [page]) (page + 1) hrest]
    simp [pageList, List.append_assoc, List.length_cons]

theorem fetchFrom_bad_status {α : Type} (good : List (List α))
    (bad : PageResp α) (junk : List (PageResp α)) :
    ∀ (acc : List α) (reqs : List Nat) (page : Nat),
      (∀ l ∈ good, l.length = 100) → bad.status ≠ 200 →
      (fetchFrom acc reqs page
          (good.map (fun d => PageResp.mk 200 d) ++ bad :: junk)).1 =
        acc ++ good.flatten := by
  induction good with
  | nil =>
    intro acc reqs page _ hbad
    simp [fetchFrom, hbad]
  | cons p rest ih =>
    intro acc reqs page hfull hbad
    have hp : p.length = 100 := hfull p (List.mem_cons_self p rest)
    have hpe : p.isEmpty = false := by
      cases p with
      | nil => simp at hp
      | cons a t => simp [List.isEmpty]
    have hns : ¬ p.length < 100 := by omega
    have hrest : ∀ l ∈ rest, l.length = 100 := fun l hl =>
      hfull l (List.mem_cons_of_mem p hl)
    have hstep : fetchFrom acc reqs page
        (PageResp.mk 200 p ::
          (rest.map (fun d => PageResp.mk 200 d) ++ bad :: junk)) =
        fetchFrom (acc ++ p) (reqs ++ [page]) (page + 1)
          (rest.map (fun d => PageResp.mk 200 d) ++ bad :: junk) := by
      simp [fetchFrom, hpe, hns]
    simp only [List.map_cons, List.cons_append]
    rw [hstep, ih (acc ++ p) (reqs ++ [page]) (page + 1) hrest hbad]
    simp [List.append_assoc]

/-- Claim C2: for every sequence of pages in which each page except the last
contains exactly `per_page = 100` items (and the last is short or empty),
`fetch_all_releases` requests consecutive pages starting at page 1, returns
the concatenation of all pages in order, and terminates after the first
empty/short page — any further pages the server could serve are never
requested. -/
theorem claim_C2_pagination_concat {α : Type} (full : List (List α))
    (last : List α) (junk : List (PageResp α))
    (hfull : ∀ l ∈ full, l.length = 100) (hlast : last.length < 100) :
    fetch_all_releases
        ((full ++ [last]).map (fun d => PageResp.mk 200 d) ++ junk) =
      ((full ++ [last]).flatten, pageList 1 (full.length + 1)) := by
  unfold fetch_all_releases
  rw [fetchFrom_full_pages full last hlast junk [] [] 1 hfull]
  simp

/-- Witness for claim C2 at a concrete server: one full page of 100 items,
a short page of 1 item, then a junk page that is never requested. -/
theorem claim_C2_pagination_concat_witness :
    fetch_all_releases
        (([List.replicate 100 (0 : Nat)] ++ [[7]]).map
            (fun d => PageResp.mk 200 d) ++ [PageResp.mk 404 [9]]) =
      (([List.replicate 100 (0 : Nat)] ++ [[7]]).flatten,
        pageList 1 ([List.replicate 100 (0 : Nat)].length + 1)) :=
  claim_C2_pagination_concat [List.replicate 100 (0 : Nat)] [7]
    [PageResp.mk 404 [9]] (by intro l hl; simp at hl; simp [hl]) (by simp)

/-- Claim C7: a non-200 HTTP status on any page request aborts pagination and
`fetch_all_releases` returns exactly the releases accumulated from the earlier
(full, successfully fetched) pages; no error is raised (the function is total
and still returns a value). -/
theorem claim_C7_bad_status_partial {α : Type} (good : List (List α))
    (bad : PageResp α) (junk : List (PageResp α))
    (hgood : ∀ l ∈ good, l.length = 100) (hbad : bad.status ≠ 200) :
    (fetch_all_releases
        (good.map (fun d => PageResp.mk 200 d) ++ bad :: junk)).1 =
      good.flatten := by
  unfold fetch_all_releases
  rw [fetchFrom_bad_status good bad junk [] [] 1 hgood hbad]
  simp

/-- Witness for claim C7 at a concrete server: one full page, then a 403
response; the result is exactly the first page's items. -/
theorem claim_C7_bad_status_partial_witness :
    (fetch_all_releases
        ([List.replicate 100 (0 : Nat)].map (fun d => PageResp.mk 200 d) ++
          PageResp.mk 403 [] :: [])).1 =
      [List.replicate 100 (0 : Nat)].flatten :=
  claim_C7_bad_status_partial [List.replicate 100 (0 : Nat)]
    (PageResp.mk 403 []) [] (by intro l hl; simp at hl; simp [hl]) (by simp)

/-! ## Streaming lemmas and claims C4, C10 -/

theorem stream_summary_chunks (b : Backend) (chunks : List (Option String)) :
    stream_summary b (chunks.map StreamEvent.chunk) =
      chunks.map (fun c => c.getD "") := by
  induction chunks with
  | nil => rfl
  | cons c cs ih => simp [stream_summary, ih]

/-- Claim C4: for either backend, a backend-side failure raised at any point
of the stream never escapes `stream_summary`: the fragments are exactly the
chunks delivered before the failure (with `None` contents as `""`), followed
by exactly one final error fragment, and the generator then terminates, so
the fragment count is the number of successful chunks plus one.  Events after
the raise are never reached. -/
theorem claim_C4_stream_error_fragment (b : Backend)
    (pre : List (Option String)) (e : String) (post : List StreamEvent) :
    stream_summary b
        (pre.map StreamEvent.chunk ++ StreamEvent.raise e :: post) =
      pre.map (fun c => c.getD "") ++ [backendErrorFragment b e] ∧
    (stream_summary b
        (pre.map StreamEvent.chunk ++ StreamEvent.raise e :: post)).length =
      pre.length + 1 := by
  have h : stream_summary b
      (pre.map StreamEvent.chunk ++ StreamEvent.raise e :: post) =
      pre.map (fun c => c.getD "") ++ [backendErrorFragment b e] := by
    induction pre with
    | nil => simp [stream_summary]
    | cons c cs ih => simp [stream_summary, ih]
  exact ⟨h, by rw [h]; simp⟩

theorem string_append_empty (s : String) : s ++ "" = s := by
  cases s with
  | mk l =>
    show String.mk (l ++ []) = String.mk l
    rw [List.append_nil]

theorem foldl_append_getD (chunks : List (Option String)) :
    ∀ acc : String,
      List.foldl (fun a s => a ++ s) acc
          (chunks.map (fun c => c.getD "")) =
        List.foldl (fun a s => a ++ s) acc (chunks.filterMap id) := by
  induction chunks with
  | nil => intro acc; rfl
  | cons c cs ih =>
    intro acc
    cases c with
    | none =>
      simp only [List.map_cons, Option.getD, List.filterMap_cons, id,
        List.foldl_cons]
      rw [string_append_empty]
      exact ih acc
    | some s =>
      simp only [List.map_cons, Option.getD, List.filterMap_cons, id,
        List.foldl_cons]
      exact ih (acc ++ s)

/-- Claim C10: on the success path (no exception), every fragment yielded by
`stream_summary` is a string — a chunk whose delta content is missing (`None`)
is yielded as the empty string — and such chunks contribute nothing to the
concatenated summary: the join of all fragments equals the join of the
contents that were actually present. -/
theorem claim_C10_none_chunks_empty (b : Backend)
    (chunks : List (Option String)) :
    stream_summary b (chunks.map StreamEvent.chunk) =
      chunks.map (fun c => c.getD "") ∧
    String.join (stream_summary b (chunks.map StreamEvent.chunk)) =
      String.join (chunks.filterMap id) := by
  refine ⟨stream_summary_chunks b chunks, ?_⟩
  rw [stream_summary_chunks b chunks]
  show List.foldl (fun a s => a ++ s) "" (chunks.map (fun c => c.getD "")) =
    List.foldl (fun a s => a ++ s) "" (chunks.filterMap id)
  exact foldl_append_getD chunks ""

/-! ## Prompt and chat-request model (`gpt.py`)

The exact request each backend's `stream_summary` sends to its completion API
is reified as a `ChatRequest` value: model identifier, message list, the
`stream` flag, and the `temperature` keyword argument when one is passed
(`none` when the call omits it). -/

/-- One chat message of the two-message exchange. -/
structure ChatMessage where
  role : String
  content : String
deriving DecidableEq

/-- The arguments of a `chat.completions.create` call. -/
structure ChatRequest where
  model : String
  messages : List ChatMessage
  stream : Bool
  temperature : Option Rat
deriving DecidableEq

/-- `BaseGPTClient.generate_prompt` (lines 13-24 of `gpt.py`): the f-string
template, shared by both backends via inheritance. -/
def generate_prompt (releases : String) (n_days : Int)
    (language : String) : String :=
  "Please extract and summarize the important revision content, version number, " ++
  "and release time from the following GitHub releases JSON data for the past " ++
  toString n_days ++
  " days. Provide a concise summary in " ++ language ++ ".\n\nData:\n" ++ releases

/-- The request built by `OpenAIClient.stream_summary` (lines 41-55 of
`gpt.py`): model `"gpt-4o"`, a fixed system message plus the rendered prompt
as user message, `stream=True`, `temperature=0.0`. -/
def openAIStreamRequest (releases : String) (n_days : Int)
    (language : String) : ChatRequest :=
  { model := "gpt-4o"
  , messages :=
      [ ⟨"system", "You are a seasoned software engineer."⟩
      , ⟨"user", generate_prompt releases n_days language⟩ ]
  , stream := true
  , temperature := some 0 }

/-- The request built by `ZhipuAIClient.stream_summary` (lines 68-85 of
`gpt.py`): the client's model, a fixed system message plus the rendered
prompt as user message, `stream=True`; the call passes no `temperature`
keyword argument. -/
def zhipuStreamRequest (model : String) (releases : String) (n_days : Int)
    (language : String) : ChatRequest :=
  { model := model
  , messages :=
      [ ⟨"system", "You are a knowledgeable assistant that provides professional and insightful advice."⟩
      , ⟨"user", generate_prompt releases n_days language⟩ ]
  , stream := true
  , temperature := none }

/-- The content of the user message of a request, when the message list has
the two-message shape. -/
def userContent (req : ChatRequest) : Option String :=
  (req.messages.get? 1).map ChatMessage.content

/-! ## Client factory model (`create_gpt_client`) -/

/-- The client value returned by `create_gpt_client`: either an
`OpenAIClient` (provider `"openai"`) or a `ZhipuAIClient` with its model
(provider `"zhipuai"`). -/
inductive GPTClient where
  | openAIClient (api_key : String)
  | zhipuAIClient (api_key : String) (model : String)
deriving DecidableEq

/-- The `provider` attribute set by each concrete client's constructor. -/
def GPTClient.provider : GPTClient → String
  | GPTClient.openAIClient _ => "openai"
  | GPTClient.zhipuAIClient _ _ => "zhipuai"

/-- `create_gpt_client` (lines 92-105 of `gpt.py`): lower-cases the provider
name; `"openai"` yields an `OpenAIClient`, `"zhipuai"` yields a
`ZhipuAIClient` whose model defaults to `"glm-4-flash"` when the `model`
argument is empty (falsy); anything else raises
`ValueError(f"Unsupported GPT provider: ...")`. -/
def pyLower (s : String) : String :=
  String.mk (s.data.map Char.toLower)

def create_gpt_client (provider api_key model : String) :
    Except String GPTClient :=
  let p := pyLower provider
  if p = "openai" then Except.ok (GPTClient.openAIClient api_key)
  else if p = "zhipuai" then
    Except.ok (GPTClient.zhipuAIClient api_key
      (if model = "" then "glm-4-flash" else model))
  else Except.error ("Unsupported GPT provider: " ++ p)

/-! ## Claims C5, C6, C8 -/

/-- Counterexample to claim C5 as stated: the ZhipuAI backend's
`chat.completions.create` call passes no `temperature` argument at all, so it
does not request deterministic sampling (temperature 0). -/
theorem claim_C5_zhipu_no_temperature_counterexample :
    (zhipuStreamRequest "glm-4-flash" "data" 7 "English").temperature = none ∧
    (zhipuStreamRequest "glm-4-flash" "data" 7 "English").temperature ≠
      some 0 := by
  exact ⟨rfl, by simp [zhipuStreamRequest]⟩

/-- Claim C5 (amended): each backend's `stream_summary` sends a two-message
exchange — a fixed per-backend system message plus a user message containing
the rendered prompt — with streaming enabled; the OpenAI backend additionally
passes deterministic sampling (temperature 0), while the ZhipuAI backend
omits the temperature argument (provider default sampling). -/
theorem claim_C5_request_shape (releases : String) (n_days : Int)
    (language : String) (model : String) :
    (openAIStreamRequest releases n_days language).messages =
      [ ⟨"system", "You are a seasoned software engineer."⟩
      , ⟨"user", generate_prompt releases n_days language⟩ ] ∧
    (openAIStreamRequest releases n_days language).stream = true ∧
    (openAIStreamRequest releases n_days language).temperature = some 0 ∧
    (zhipuStreamRequest model releases n_days language).messages =
      [ ⟨"system", "You are a knowledgeable assistant that provides professional and insightful advice."⟩
      , ⟨"user", generate_prompt releases n_days language⟩ ] ∧
    (zhipuStreamRequest model releases n_days language).stream = true ∧
    (zhipuStreamRequest model releases n_days language).temperature = none :=
  ⟨rfl, rfl, rfl, rfl, rfl, rfl⟩

/-- Claim C8: `generate_prompt` is deterministic (two calls on identical
arguments yield the identical string) and backend-independent: the user
message sent by the OpenAI backend and the user message sent by the ZhipuAI
backend for the same arguments are the same rendered prompt. -/
theorem claim_C8_prompt_deterministic (releases : String) (n_days : Int)
    (language : String) (model : String) :
    generate_prompt releases n_days language =
      generate_prompt releases n_days language ∧
    userContent (openAIStreamRequest releases n_days language) =
      some (generate_prompt releases n_days language) ∧
    userContent (zhipuStreamRequest model releases n_days language) =
      some (generate_prompt releases n_days language) ∧
    userContent (openAIStreamRequest releases n_days language) =
      userContent (zhipuStreamRequest model releases n_days language) :=
  ⟨rfl, rfl, rfl, rfl⟩

/-- Claim C6: `create_gpt_client` succeeds exactly for the two recognized
provider names compared case-insensitively, every successfully created client
reports the requested (lower-cased) provider identity, the concrete call with
provider `"unsupported"` fails, and the calls with `"OpenAI"` and `"zhipuai"`
succeed with matching provider identities. -/
theorem claim_C6_factory (pr k m : String) :
    ((∃ c, create_gpt_client pr k m = Except.ok c) ↔
      (pyLower pr = "openai" ∨ pyLower pr = "zhipuai")) ∧
    (∀ c, create_gpt_client pr k m = Except.ok c →
      GPTClient.provider c = pyLower pr) ∧
    create_gpt_client "unsupported" "key" "" =
      Except.error "Unsupported GPT provider: unsupported" ∧
    (∃ c, create_gpt_client "OpenAI" "key" "" = Except.ok c ∧
      GPTClient.provider c = "openai") ∧
    (∃ c, create_gpt_client "zhipuai" "key" "" = Except.ok c ∧
      GPTClient.provider c = "zhipuai") := by
  refine ⟨?_, ?_, ?_, ?_, ?_⟩
  · constructor
    · intro hc
      obtain ⟨c, hc⟩ := hc
      by_cases h1 : pyLower pr = "openai"
      · exact Or.inl h1
      · by_cases h2 : pyLower pr = "zhipuai"
        · exact Or.inr h2
        · simp [create_gpt_client, h1, h2] at hc
    · intro hor
      cases hor with
      | inl h1 => exact ⟨GPTClient.openAIClient k, by simp [create_gpt_client, h1]⟩
      | inr h2 =>
        by_cases h1 : pyLower pr = "openai"
        · exact ⟨GPTClient.openAIClient k, by simp [create_gpt_client, h1]⟩
        · exact ⟨GPTClient.zhipuAIClient k (if m = "" then "glm-4-flash" else m),
            by simp [create_gpt_client, h1, h2]⟩
  · intro c hc
    by_cases h1 : pyLower pr = "openai"
    · simp [create_gpt_client, h1] at hc
      rw [← hc]
      simp [GPTClient.provider, h1]
    · by_cases h2 : pyLower pr = "zhipuai"
      · simp [create_gpt_client, h1, h2] at hc
        rw [← hc]
        simp [GPTClient.provider, h2]
      · simp [create_gpt_client, h1, h2] at hc
  · rfl
  · exact ⟨GPTClient.openAIClient "key", rfl, rfl⟩
  · exact ⟨GPTClient.zhipuAIClient "key" "glm-4-flash", rfl, rfl⟩

/-- Witness for claim C6: instantiating the provider-identity implication at
the concrete successful call `create_gpt_client "OpenAI" "key" ""`. -/
theorem claim_C6_factory_witness :
    GPTClient.provider (GPTClient.openAIClient "key") = pyLower "OpenAI" :=
  (claim_C6_factory "OpenAI" "key" "").2.1 (GPTClient.openAIClient "key") rfl

/-! ## Release filtering model (`GitHubClient.get_recent_releases`)

The timestamp parser models CPython's
`datetime.strptime(s, "%Y-%m-%dT%H:%M:%SZ")`: `%Y` is exactly four digits,
the other fields are one or two digits constrained by the regular expression
CPython compiles for each directive, the whole string must be consumed, and
the resulting calendar date must be valid (`datetime` raises on day 30 of
February or year 0000).  A successful parse is reported as the number of
seconds since the proleptic-Gregorian epoch 0001-01-01T00:00:00, which orders
parses exactly as `datetime` comparison does.  `utcnow()` carries
microseconds, so moments are compared in microseconds. -/

/-- Numeric value of a decimal digit character. -/
def digitVal (c : Char) : Nat := c.toNat - 48

/-- Read exactly four digits (CPython's regex for `%Y`). -/
def readFixedFour (cs : List Char) : Option (Nat × List Char) :=
  match cs with
  | a :: b :: c :: d :: rest =>
    if a.isDigit && b.isDigit && c.isDigit && d.isDigit then
      some (1000 * digitVal a + 100 * digitVal b + 10 * digitVal c +
        digitVal d, rest)
    else none
  | _ => none

/-- Read one or two digits whose value lies in `[lo, hi]` (CPython's regexes
for `%m`, `%d`, `%H`, `%M`, `%S`; two digits are preferred, and a regex
fallback to one digit can only succeed when the second character is not a
digit, which is what the branch structure implements). -/
def readOneOrTwo (lo hi : Nat) (cs : List Char) : Option (Nat × List Char) :=
  match cs with
  | [] => none
  | a :: rest =>
    if a.isDigit then
      match rest with
      | b :: rest2 =>
        if b.isDigit then
          let v := 10 * digitVal a + digitVal b
          if lo ≤ v && v ≤ hi then some (v, rest2) else none
        else
          let v := digitVal a
          if lo ≤ v && v ≤ hi then some (v, rest) else none
      | [] =>
        let v := digitVal a
        if lo ≤ v && v ≤ hi then some (v, []) else none
    else none

/-- Consume one expected literal character. -/
def expectChar (c : Char) (cs : List Char) : Option (List Char) :=
  match cs with
  | a :: rest => if a = c then some rest else none
  | [] => none

/-- Gregorian leap-year rule, as in `datetime`. -/
def isLeapYear (y : Nat) : Bool := (y % 4 = 0 && y % 100 != 0) || y % 400 = 0

/-- Number of days of month `m` of year `y`. -/
def daysInMonth (y m : Nat) : Nat :=
  if m = 2 then (if isLeapYear y then 29 else 28)
  else if m = 4 || m = 6 || m = 9 || m = 11 then 30 else 31

/-- Number of days in the months of year `y` strictly before month `m`. -/
def daysBeforeMonth (y m : Nat) : Nat :=
  (List.range (m - 1)).foldl (fun acc i => acc + daysInMonth y (i + 1)) 0

/-- Proleptic-Gregorian ordinal of a date, as `datetime.date.toordinal`
(0001-01-01 is day 1). -/
def dateOrdinal (y m d : Nat) : Nat :=
  365 * (y - 1) + (y - 1) / 4 - (y - 1) / 100 + (y - 1) / 400 +
    daysBeforeMonth y m + d

/-- Seconds since the proleptic-Gregorian epoch of a datetime value. -/
def dateTimeSeconds (y mo d h mi s : Nat) : Nat :=
  dateOrdinal y mo d * 86400 + h * 3600 + mi * 60 + s

/-- `datetime.datetime.strptime(s, "%Y-%m-%dT%H:%M:%SZ")` as used on line 53
of `github_release.py`: `none` models the raised `ValueError` (caught by the
source and turned into a `continue`). -/
def parseGithubTime (s : String) : Option Nat := do
  let (y, r1) ← readFixedFour s.data
  let r2 ← expectChar '-' r1
  let (mo, r3) ← readOneOrTwo 1 12 r2
  let r4 ← expectChar '-' r3
  let (d, r5) ← readOneOrTwo 1 31 r4
  let r6 ← expectChar 'T' r5
  let (h, r7) ← readOneOrTwo 0 23 r6
  let r8 ← expectChar ':' r7
  let (mi, r9) ← readOneOrTwo 0 59 r8
  let r10 ← expectChar ':' r9
  let (sec, r11) ← readOneOrTwo 0 59 r10
  let r12 ← expectChar 'Z' r11
  if r12 = [] && 1 ≤ y && d ≤ daysInMonth y mo then
    some (dateTimeSeconds y mo d h mi sec)
  else none

/-- A raw release record as used by `get_recent_releases`:
`release.get("published_at")`, `release.get("tag_name")`,
`release.get("body")` (absent key and JSON null both map to `none`). -/
structure RawRelease where
  published_at : Option String
  tag_name : Option String
  body : Option String
deriving DecidableEq

/-- A filtered release record `{time, version, description}`. -/
structure FilteredRelease where
  time : String
  version : Option String
  description : Option String
deriving DecidableEq

/-- The `for release in releases` loop of `get_recent_releases` (lines 47-62
of `github_release.py`): a missing or falsy (empty) `published_at` is skipped,
an unparseable one is skipped (the `except` around `strptime`), and a parsed
timestamp is kept iff `published_at >= cutoff`.  Times are in microseconds;
`cutoff` may carry the microseconds of `utcnow()`. -/
def filterRecent (cutoff : Int) : List RawRelease → List FilteredRelease
  | [] => []
  | rel :: rest =>
    match rel.published_at with
    | none => filterRecent cutoff rest
    | some s =>
      if s = "" then filterRecent cutoff rest
      else
        match parseGithubTime s with
        | none => filterRecent cutoff rest
        | some t =>
          if cutoff ≤ (t : Int) * 1000000 then
            { time := s, version := rel.tag_name, description := rel.body } ::
              filterRecent cutoff rest
          else filterRecent cutoff rest

/-- `GitHubClient.get_recent_releases` (lines 39-63): the releases argument is
the list returned by `fetch_all_releases`; `nowMicros` is `utcnow()` in
microseconds since the proleptic-Gregorian epoch;
`cutoff = now - timedelta(days=n_days)`. -/
def get_recent_releases (releases : List RawRelease) (nowMicros : Int)
    (n_days : Int) : List FilteredRelease :=
  filterRecent (nowMicros - n_days * 86400000000) releases

/-- The predicate claim C1 describes: the record's `published_at` is present,
non-empty, parses under the fixed format, and is at least the cutoff. -/
def keepRelease (cutoff : Int) (rel : RawRelease) : Bool :=
  match rel.published_at with
  | none => false
  | some s =>
    if s = "" then false
    else
      match parseGithubTime s with
      | none => false
      | some t => decide (cutoff ≤ (t : Int) * 1000000)

/-- The projection claim C1 describes: `{time, version, description}` taken
from `published_at`, `tag_name` and `body`. -/
def projectRelease (rel : RawRelease) : FilteredRelease :=
  { time := rel.published_at.getD ""
  , version := rel.tag_name
  , description := rel.body }

theorem filterRecent_eq_filter_map (cutoff : Int) (releases : List RawRelease) :
    filterRecent cutoff releases =
      (releases.filter (keepRelease cutoff)).map projectRelease := by
  induction releases with
  | nil => rfl
  | cons rel rest ih =>
    cases hpub : rel.published_at with
    | none =>
      have hk : keepRelease cutoff rel = false := by
        simp [keepRelease, hpub]
      simp [filterRecent, hpub, List.filter_cons, hk, ih]
    | some s =>
      by_cases hs : s = ""
      · have hk : keepRelease cutoff rel = false := by
          simp [keepRelease, hpub, hs]
        simp [filterRecent, hpub, hs, List.filter_cons, hk, ih]
      · cases hparse : parseGithubTime s with
        | none =>
          have hk : keepRelease cutoff rel = false := by
            simp [keepRelease, hpub, hs, hparse]
          simp [filterRecent, hpub, hs, hparse, List.filter_cons, hk, ih]
        | some t =>
          by_cases hc : cutoff ≤ (t : Int) * 1000000
          · have hk : keepRelease cutoff rel = true := by
              simp [keepRelease, hpub, hs, hparse, hc]
            simp [filterRecent, hpub, hs, hparse, hc, List.filter_cons, hk, ih,
              projectRelease]
          · have hk : keepRelease cutoff rel = false := by
              simp [keepRelease, hpub, hs, hparse, hc]
            simp [filterRecent, hpub, hs, hparse, hc, List.filter_cons, hk, ih]

/-- Claim C1: `get_recent_releases` keeps exactly the records whose
`published_at` parses under the fixed format and is at least
`now - n_days` days, silently drops records with a missing or unparseable
timestamp, projects each kept record to `{time, version, description}` from
`published_at`, `tag_name` and `body`, and preserves the input order — it is
the order-preserving filter-then-project of its input.  The second conjunct
checks the spec's concrete scenario (raw releases v1 of 2024-01-10 and v0 of
2023-01-01, now 2024-01-12T00:00:00Z, window 7 days). -/
theorem claim_C1_recent_filter :
    (∀ (releases : List RawRelease) (nowMicros n_days : Int),
      get_recent_releases releases nowMicros n_days =
        (releases.filter
            (keepRelease (nowMicros - n_days * 86400000000))).map
          projectRelease) ∧
    get_recent_releases
        [ ⟨some "2024-01-10T00:00:00Z", some "v1", some "fix"⟩
        , ⟨some "2023-01-01T00:00:00Z", some "v0", some "init"⟩ ]
        ((dateTimeSeconds 2024 1 12 0 0 0 : Int) * 1000000) 7 =
      [⟨"2024-01-10T00:00:00Z", some "v1", some "fix"⟩] := by
  constructor
  · intro releases nowMicros n_days
    exact filterRecent_eq_filter_map (nowMicros - n_days * 86400000000) releases
  · decide

/-! ## Repository reference parsing (`parse_repo_input`)

`parse_repo_input` (lines 66-82 of `github_release.py`) strips the input,
then either matches `re.match(r"https://github\.com/([^/]+)/([^/]+)", ...)`
when the input starts with `https://github.com/`, or splits once at the first
slash.  The model works on the character list of the string. -/

/-- The characters stripped by Python's `str.strip()` (ASCII whitespace;
GitHub references are ASCII). -/
def isPySpace (c : Char) : Bool :=
  c = ' ' || c = '\t' || c = '\n' || c = '\r' || c = '\x0b' || c = '\x0c'

/-- Python's `str.strip()`: remove leading and trailing whitespace. -/
def pyStrip (cs : List Char) : List Char :=
  ((cs.dropWhile isPySpace).reverse.dropWhile isPySpace).reverse

/-- Remove an exact leading character sequence; `some rest` iff the sequence
is a prefix (this is `str.startswith` plus the literal part of the regex). -/
def dropExact : List Char → List Char → Option (List Char)
  | [], cs => some cs
  | _ :: _, [] => none
  | p :: ps, c :: cs => if c = p then dropExact ps cs else none

/-- The URL head `https://github.com/`. -/
def ghHead : List Char := "https://github.com/".data

/-- The two capture groups `([^/]+)/([^/]+)` of the URL pattern, matched
against the text after the literal head (`re.match` anchors at the start only,
so any text after the second group is ignored). -/
def matchUrlRest (rest : List Char) : Option (List Char × List Char) :=
  let owner := rest.takeWhile (fun c => c != '/')
  if owner.isEmpty then none
  else
    match rest.dropWhile (fun c => c != '/') with
    | [] => none
    | _ :: after =>
      let nm := after.takeWhile (fun c => c != '/')
      if nm.isEmpty then none else some (owner, nm)

/-- Python's `s.split("/", 1)` when `"/"` occurs in `s`: the text before the
first slash and the text after it. -/
def splitFirstSlash (cs : List Char) : List Char × List Char :=
  (cs.takeWhile (fun c => c != '/'),
    ((cs.dropWhile (fun c => c != '/')).drop 1))

/-- `parse_repo_input` on the character list: strip; URL branch when the
stripped input starts with `https://github.com/` (regex match or
`ValueError("Cannot parse repository URL")`); otherwise split at the first
slash, or `ValueError("Please enter in username/repo format")` when there is
none. -/
def parseRepoChars (input : List Char) : Except String (List Char × List Char) :=
  let s := pyStrip input
  match dropExact ghHead s with
  | some rest =>
    match matchUrlRest rest with
    | none => Except.error "Cannot parse repository URL"
    | some (u, r) => Except.ok (u, r)
  | none =>
    if s.any (fun c => c == '/') then Except.ok (splitFirstSlash s)
    else Except.error "Please enter in username/repo format"

/-- `parse_repo_input` on strings. -/
def parse_repo_input (s : String) : Except String (String × String) :=
  match parseRepoChars s.data with
  | Except.error e => Except.error e
  | Except.ok (u, r) => Except.ok (String.mk u, String.mk r)

/-! ### List lemmas for the parser -/

theorem takeWhile_no_slash_append (u r : List Char) (h : '/' ∉ u) :
    (u ++ '/' :: r).takeWhile (fun c => c != '/') = u := by
  induction u with
  | nil => simp [List.takeWhile_cons]
  | cons a t ih =>
    have ha : a ≠ '/' := fun e => h (e ▸ List.mem_cons_self a t)
    have ht : '/' ∉ t := fun e => h (List.mem_cons_of_mem a e)
    simp [List.takeWhile_cons, ha, ih ht]

theorem dropWhile_no_slash_append (u r : List Char) (h : '/' ∉ u) :
    (u ++ '/' :: r).dropWhile (fun c => c != '/') = '/' :: r := by
  induction u with
  | nil => simp [List.dropWhile_cons]
  | cons a t ih =>
    have ha : a ≠ '/' := fun e => h (e ▸ List.mem_cons_self a t)
    have ht : '/' ∉ t := fun e => h (List.mem_cons_of_mem a e)
    simp [List.dropWhile_cons, ha, ih ht]

theorem takeWhile_no_slash_self (r : List Char) (h : '/' ∉ r) :
    r.takeWhile (fun c => c != '/') = r := by
  induction r with
  | nil => rfl
  | cons a t ih =>
    have ha : a ≠ '/' := fun e => h (e ▸ List.mem_cons_self a t)
    have ht : '/' ∉ t := fun e => h (List.mem_cons_of_mem a e)
    simp [List.takeWhile_cons, ha, ih ht]

theorem dropExact_self_append (p t : List Char) :
    dropExact p (p ++ t) = some t := by
  induction p with
  | nil => rfl
  | cons c ps ih => simp [dropExact, ih]

theorem dropExact_eq_some (p : List Char) :
    ∀ cs t : List Char, dropExact p cs = some t → cs = p ++ t := by
  induction p with
  | nil =>
    intro cs t h
    simp [dropExact] at h
    simp [h]
  | cons c ps ih =>
    intro cs t h
    cases cs with
    | nil => simp [dropExact] at h
    | cons a rest =>
      by_cases hac : a = c
      · simp [dropExact, hac] at h
        simp [hac, ih rest t h]
      · simp [dropExact, hac] at h

/-- Counterexample to claim C3 as stated: the input `"a/"` is not of the form
`owner/name` with both fields non-empty, yet `parse_repo_input` succeeds and
returns an empty `name` instead of failing. -/
theorem claim_C3_empty_name_counterexample :
    parse_repo_input "a/" = Except.ok ("a", "") := by rfl

/-- Claim C3 (amended): stripping whitespace first, an input containing a
slash and not starting with `https://github.com/` is split at its first slash
and returns `{owner, name}` where either field may be empty; a URL input
`https://github.com/owner/name` with both segments non-empty and slash-free
returns `{owner, name}`, and every success of the URL branch has both fields
non-empty; the parser fails exactly on inputs with no slash at all
(`"Please enter in username/repo format"`) and on URL-prefixed inputs whose
remainder has no `nonempty/nonempty` shape
(`"Cannot parse repository URL"`). -/
theorem claim_C3_parse_repo (u r cs rest : List Char) :
    ('/' ∉ u →
      pyStrip (u ++ '/' :: r) = u ++ '/' :: r →
      dropExact ghHead (u ++ '/' :: r) = none →
      parse_repo_input (String.mk (u ++ '/' :: r)) =
        Except.ok (String.mk u, String.mk r)) ∧
    (u ≠ [] → r ≠ [] → '/' ∉ u → '/' ∉ r →
      pyStrip (ghHead ++ u ++ '/' :: r) = ghHead ++ u ++ '/' :: r →
      parse_repo_input (String.mk (ghHead ++ u ++ '/' :: r)) =
        Except.ok (String.mk u, String.mk r)) ∧
    (pyStrip cs = cs → '/' ∉ cs →
      parse_repo_input (String.mk cs) =
        Except.error "Please enter in username/repo format") ∧
    (matchUrlRest rest = none →
      pyStrip (ghHead ++ rest) = ghHead ++ rest →
      parse_repo_input (String.mk (ghHead ++ rest)) =
        Except.error "Cannot parse repository URL") ∧
    (∀ u2 r2, matchUrlRest rest = some (u2, r2) → u2 ≠ [] ∧ r2 ≠ []) := by
  refine ⟨?_, ?_, ?_, ?_, ?_⟩
  · intro hu hstrip hdrop
    have hchars : parseRepoChars (u ++ '/' :: r) = Except.ok (u, r) := by
      have hany : (u ++ '/' :: r).any (fun c => c == '/') = true := by
        simp
      have hsplit : splitFirstSlash (u ++ '/' :: r) = (u, r) := by
        unfold splitFirstSlash
        rw [takeWhile_no_slash_append u r hu, dropWhile_no_slash_append u r hu]
        rfl
      unfold parseRepoChars
      rw [hstrip]
      simp [hdrop, hany, hsplit]
    unfold parse_repo_input
    simp only [show (String.mk (u ++ '/' :: r)).data = u ++ '/' :: r from rfl,
      hchars]
  · intro hu0 hr0 hu hr hstrip
    have hurl : matchUrlRest (u ++ '/' :: r) = some (u, r) := by
      have hue : u.isEmpty = false := by
        cases u with
        | nil => exact absurd rfl hu0
        | cons a t => rfl
      have hre : r.takeWhile (fun c => c != '/') = r :=
        takeWhile_no_slash_self r hr
      have hre2 : r.isEmpty = false := by
        cases r with
        | nil => exact absurd rfl hr0
        | cons a t => rfl
      unfold matchUrlRest
      rw [takeWhile_no_slash_append u r hu, dropWhile_no_slash_append u r hu]
      simp [hue, hre, hre2]
    have hchars : parseRepoChars (ghHead ++ u ++ '/' :: r) =
        Except.ok (u, r) := by
      unfold parseRepoChars
      rw [hstrip]
      simp [dropExact_self_append, hurl]
    unfold parse_repo_input
    simp only [show (String.mk (ghHead ++ u ++ '/' :: r)).data =
          ghHead ++ u ++ '/' :: r from rfl, hchars]
  · intro hstrip hslash
    have hdrop : dropExact ghHead cs = none := by
      cases hd : dropExact ghHead cs with
      | none => rfl
      | some t =>
        have : cs = ghHead ++ t := dropExact_eq_some ghHead cs t hd
        have hmem : '/' ∈ cs := by
          rw [this]
          exact List.mem_append_left t (by decide)
        exact absurd hmem hslash
    have hany : cs.any (fun c => c == '/') = false := by
      cases ha : cs.any (fun c => c == '/') with
      | false => rfl
      | true =>
        rw [List.any_eq_true] at ha
        obtain ⟨c, hc, he⟩ := ha
        rw [beq_iff_eq] at he
        exact absurd (he ▸ hc) hslash
    have hchars : parseRepoChars cs =
        Except.error "Please enter in username/repo format" := by
      unfold parseRepoChars
      rw [hstrip]
      simp [hdrop, hany]
    unfold parse_repo_input
    simp only [show (String.mk cs).data = cs from rfl, hchars]
  · intro hfail hstrip
    have hchars : parseRepoChars (ghHead ++ rest) =
        Except.error "Cannot parse repository URL" := by
      unfold parseRepoChars
      rw [hstrip]
      simp [dropExact_self_append, hfail]
    unfold parse_repo_input
    simp only [show (String.mk (ghHead ++ rest)).data = ghHead ++ rest
      from rfl, hchars]
  · intro u2 r2 hm
    unfold matchUrlRest at hm
    by_cases ho : (rest.takeWhile (fun c => c != '/')).isEmpty
    · simp [ho] at hm
    · simp only [ho, Bool.false_eq_true, if_false] at hm
      cases hd : rest.dropWhile (fun c => c != '/') with
      | nil => rw [hd] at hm; simp at hm
      | cons a after =>
        rw [hd] at hm
        by_cases hn : (after.takeWhile (fun c => c != '/')).isEmpty
        · simp [hn] at hm
        · simp only [hn, Bool.false_eq_true, if_false, Option.some.injEq,
            Prod.mk.injEq] at hm
          obtain ⟨hm1, hm2⟩ := hm
          constructor
          · intro hnil
            rw [hm1, List.isEmpty_iff] at ho
            exact ho hnil
          · intro hnil
            rw [hm2, List.isEmpty_iff] at hn
            exact hn hnil

/-- Witness for claim C3: the four hypothetical conjuncts instantiated at
concrete inputs `a/b`, `https://github.com/a/b`, `abc` and
`https://github.com/a`. -/
theorem claim_C3_parse_repo_witness :
    parse_repo_input (String.mk (['a'] ++ '/' :: ['b'])) =
      Except.ok (String.mk ['a'], String.mk ['b']) ∧
    parse_repo_input (String.mk (ghHead ++ ['a'] ++ '/' :: ['b'])) =
      Except.ok (String.mk ['a'], String.mk ['b']) ∧
    parse_repo_input (String.mk ['a', 'b', 'c']) =
      Except.error "Please enter in username/repo format" ∧
    parse_repo_input (String.mk (ghHead ++ ['a'])) =
      Except.error "Cannot parse repository URL" :=
  ⟨(claim_C3_parse_repo ['a'] ['b'] ['a', 'b', 'c'] ['a']).1
      (by decide) (by decide) (by decide),
   (claim_C3_parse_repo ['a'] ['b'] ['a', 'b', 'c'] ['a']).2.1
      (by decide) (by decide) (by decide) (by decide) (by decide),
   (claim_C3_parse_repo ['a'] ['b'] ['a', 'b', 'c'] ['a']).2.2.1
      (by decide) (by decide),
   (claim_C3_parse_repo ['a'] ['b'] ['a', 'b', 'c'] ['a']).2.2.2.1
      (by decide) (by decide)⟩

/-! ## Repository persistence model (`app.py`)

The persisted JSON document `data/repos.json` maps session ids to ordered
lists of `owner/name` strings; `none` models a file that does not exist yet.
Each operation reports whether it succeeded, the message shown to the user,
the resulting file state, and whether any `json.dump` write to the file
happened during the call (including the file-initialising write of
`ensure_data_file`). -/

/-- The JSON object of `repos.json`: an insertion-ordered mapping from
session id to repository list. -/
abbrev RepoMap := List (String × List String)

/-- Python's `data[session_id] = repos`: replace the value in place, or
append the new key. -/
def setRepos (m : RepoMap) (k : String) (v : List String) : RepoMap :=
  match m with
  | [] => [(k, v)]
  | (k2, v2) :: rest =>
    if k2 = k then (k, v) :: rest else (k2, v2) :: setRepos rest k v

/-- `data.get(session_id, [])` read through the optional file (a missing
file reads as the empty object, as `ensure_data_file` would initialise it). -/
def getRepos (file : Option RepoMap) (k : String) : List String :=
  ((file.getD []).lookup k).getD []

/-- `ensure_data_file` (lines 15-20 of `app.py`): when the file does not
exist, create it containing the empty JSON object — a write; otherwise leave
it alone. -/
def ensure_data_file (file : Option RepoMap) : Option RepoMap × Bool :=
  match file with
  | none => (some [], true)
  | some m => (some m, false)

/-- Result of `add_repo` / `remove_repo`: the returned `(bool, message)`
pair, the file state afterwards, and whether any write occurred. -/
structure OpResult where
  success : Bool
  message : String
  file : Option RepoMap
  wrote : Bool
deriving DecidableEq

/-- `add_repo` (lines 37-58 of `app.py`): parse the input (failure returns
before any file access); read the file (creating it when missing); reject a
duplicate; otherwise append the repository and write the file back. -/
def add_repo (file : Option RepoMap) (session_id repo_str : String) :
    OpResult :=
  match parse_repo_input repo_str with
  | Except.error _ => ⟨false, "Invalid repository format.", file, false⟩
  | Except.ok (username, repo) =>
    let ed := ensure_data_file file
    let data := ed.1.getD []
    let repos := (data.lookup session_id).getD []
    let new_repo := username ++ "/" ++ repo
    if new_repo ∈ repos then ⟨false, "Repository already exists.", ed.1, ed.2⟩
    else
      ⟨true, "Repository added.",
        some (setRepos data session_id (repos ++ [new_repo])), true⟩

/-- `remove_repo` (lines 61-76 of `app.py`): read the file (creating it when
missing); reject a repository that is not present; otherwise remove its first
occurrence and write the file back. -/
def remove_repo (file : Option RepoMap) (session_id repo_str : String) :
    OpResult :=
  let ed := ensure_data_file file
  let data := ed.1.getD []
  let repos := (data.lookup session_id).getD []
  if repo_str ∈ repos then
    ⟨true, "Repository removed.",
      some (setRepos data session_id (repos.erase repo_str)), true⟩
  else ⟨false, "Repository not found.", ed.1, ed.2⟩

/-- Counterexample to claim C9 as stated: when the JSON file does not yet
exist, `remove_repo` fails with "Repository not found." but
`ensure_data_file` has already performed a write, creating the file with the
empty object — so a write to the JSON file does occur on this error path. -/
theorem claim_C9_missing_file_counterexample :
    (remove_repo none "session" "octo/repo").success = false ∧
    (remove_repo none "session" "octo/repo").wrote = true ∧
    (remove_repo none "session" "octo/repo").file = some [] := by
  decide

/-- Claim C9 (amended): when `add_repo` or `remove_repo` fails, the persisted
repository mapping is left unchanged, and no write to the JSON file occurs
except that `ensure_data_file` may create the file containing the empty
mapping when it did not exist (in particular, when the file existed, no write
at all occurs on the error path; `add_repo`'s unparseable-input path performs
no file access whatsoever).  Moreover, the failure results are exactly as
claimed: unparseable input fails `add_repo`, a repository already present
for the session fails `add_repo`, and a repository not present for the
session fails `remove_repo`. -/
theorem claim_C9_error_paths (file : Option RepoMap) (sid s : String) :
    ((add_repo file sid s).success = false →
      (add_repo file sid s).file.getD [] = file.getD [] ∧
      ((add_repo file sid s).wrote = true →
        file = none ∧ (add_repo file sid s).file = some [])) ∧
    ((remove_repo file sid s).success = false →
      (remove_repo file sid s).file.getD [] = file.getD [] ∧
      ((remove_repo file sid s).wrote = true →
        file = none ∧ (remove_repo file sid s).file = some [])) ∧
    (∀ e, parse_repo_input s = Except.error e →
      add_repo file sid s = ⟨false, "Invalid repository format.", file, false⟩) ∧
    ((remove_repo file sid s).success = false ↔ s ∉ getRepos file sid) ∧
    (∀ u2 r2, parse_repo_input s = Except.ok (u2, r2) →
      ((add_repo file sid s).success = false ↔
        u2 ++ "/" ++ r2 ∈ getRepos file sid)) := by
  refine ⟨?_, ?_, ?_, ?_, ?_⟩
  · intro hfail
    cases hp : parse_repo_input s with
    | error e =>
      simp [add_repo, hp]
    | ok p =>
      obtain ⟨u2, r2⟩ := p
      cases file with
      | none =>
        by_cases hmem : u2 ++ "/" ++ r2 ∈
            ((((some ([] : RepoMap)).getD []).lookup sid).getD [])
        · simp at hmem
        · simp [add_repo, hp, ensure_data_file] at hfail
      | some m =>
        by_cases hmem : u2 ++ "/" ++ r2 ∈ (((m : RepoMap).lookup sid).getD [])
        · simp [add_repo, hp, ensure_data_file, hmem]
        · simp [add_repo, hp, ensure_data_file, hmem] at hfail
  · intro hfail
    cases file with
    | none =>
      by_cases hmem : s ∈ ((([] : RepoMap).lookup sid).getD [])
      · simp at hmem
      · simp [remove_repo, ensure_data_file, hmem]
    | some m =>
      by_cases hmem : s ∈ (((m : RepoMap).lookup sid).getD [])
      · simp [remove_repo, ensure_data_file, hmem] at hfail
      · simp [remove_repo, ensure_data_file, hmem]
  · intro e hp
    simp [add_repo, hp]
  · cases file with
    | none =>
      by_cases hmem : s ∈ ((([] : RepoMap).lookup sid).getD [])
      · simp at hmem
      · simp [remove_repo, ensure_data_file, hmem, getRepos]
    | some m =>
      by_cases hmem : s ∈ (((m : RepoMap).lookup sid).getD [])
      · simp [remove_repo, ensure_data_file, hmem, getRepos]
      · simp [remove_repo, ensure_data_file, hmem, getRepos]
  · intro u2 r2 hp
    cases file with
    | none =>
      by_cases hmem : u2 ++ "/" ++ r2 ∈ ((([] : RepoMap).lookup sid).getD [])
      · simp at hmem
      · simp [add_repo, hp, ensure_data_file, hmem, getRepos]
    | some m =>
      by_cases hmem : u2 ++ "/" ++ r2 ∈ (((m : RepoMap).lookup sid).getD [])
      · simp [add_repo, hp, ensure_data_file, hmem, getRepos]
      · simp [add_repo, hp, ensure_data_file, hmem, getRepos]

/-- Witness for claim C9: the error-path conjuncts instantiated at a file
that already contains `a/b` for the session (duplicate add fails, file
untouched, nothing written) and at an input without a slash (parse failure). -/
theorem claim_C9_error_paths_witness :
    ((add_repo (some [("sid", ["a/b"])]) "sid" "a/b").file.getD [] =
        (some [("sid", ["a/b"])] : Option RepoMap).getD [] ∧
      ((add_repo (some [("sid", ["a/b"])]) "sid" "a/b").wrote = true →
        (some [("sid", ["a/b"])] : Option RepoMap) = none ∧
        (add_repo (some [("sid", ["a/b"])]) "sid" "a/b").file = some [])) ∧
    add_repo (some [("sid", ["a/b"])]) "sid" "nobody" =
      ⟨false, "Invalid repository format.", some [("sid", ["a/b"])], false⟩ :=
  ⟨(claim_C9_error_paths (some [("sid", ["a/b"])]) "sid" "a/b").1 (by decide),
   (claim_C9_error_paths (some [("sid", ["a/b"])]) "sid" "nobody").2.2.1
      "Please enter in username/repo format" rfl⟩

end GRS
